import Mathlib

/-!
Verification of the voice-enhancement core of the antigrav-raspberrypi repository:
a shallow embedding of src/audio_preprocessing.py (class AudioPreprocessor) and
src/audio_monitor.py (class AudioMonitor) over exact real arithmetic, with the
spec claims about the pipeline and the monitor settled against it.

Modelling conventions:
- 16-bit PCM byte strings are List Nat (one entry per byte, little endian);
  numpy frombuffer on an odd byte count raises ValueError, embedded as Option/Except.
- float32/float64 sample values are embedded as real numbers; float literals
  such as 1e-6 denote the corresponding rationals.
- numpy astype(int16) after np.clip truncates toward zero; embedded via trunc_real.
- the external engines (SpeexDSP echo canceller, WebRTC VAD) are collaborator
  capabilities: they live in the configuration as optional functions, a None
  result standing for an engine exception (which the stage catches).
- the scipy Butterworth coefficients (signal.butter, signal.lfilter_zi) are
  external library outputs computed once at construction; they enter the
  configuration as data, and signal.lfilter itself is embedded (direct form II
  transposed) since the pipeline applies it per frame.
- a Python statement that raises before mutating any attribute is embedded as
  an error value returned with the state unchanged up to that point.
-/

namespace AntigravAudio

open scoped Classical

noncomputable section

/-- Mean of a list of reals, as np.mean (empty list handled by the 0-division
convention of Lean, noted where it matters). -/
def np_mean (l : List ℝ) : ℝ := l.sum / l.length

/-- Root-mean-square as computed throughout the source: sqrt(np.mean(x ** 2)). -/
def rms_of (l : List ℝ) : ℝ := Real.sqrt (np_mean (l.map fun x => x ^ 2))

/-- np.max of absolute values, with a head default for the empty list. -/
def np_max_abs (l : List ℝ) : ℝ := (l.map fun x => |x|).foldl max ((l.map fun x => |x|).headD 0)

/-- np.clip for scalars: values below lo become lo, above hi become hi. -/
def clip_real (x lo hi : ℝ) : ℝ := min (max x lo) hi

/-- float-to-integer conversion of numpy astype on a clipped value: truncation
toward zero. -/
def trunc_real (x : ℝ) : ℤ := if 0 ≤ x then ⌊x⌋ else ⌈x⌉

/-- astype(np.int16) without a preceding clip: truncation toward zero then
wraparound into [-32768, 32767]. -/
def to_int16_wrap (x : ℝ) : ℤ := (trunc_real (x * 32768) + 32768) % 65536 - 32768

/-- np.dot of two equal-length vectors. -/
def dot_list (xs ys : List ℝ) : ℝ := (List.zipWith (· * ·) xs ys).sum

/-- np.median: mean of the two middle elements of the sorted list for even
length, the middle element for odd length. -/
def np_median (l : List ℝ) : ℝ :=
  let s := l.mergeSort (fun a b => decide (a ≤ b))
  if l.length % 2 = 1 then s.getD (l.length / 2) 0
  else (s.getD (l.length / 2 - 1) 0 + s.getD (l.length / 2) 0) / 2

end

/-- Little-endian signed 16-bit decoding of one byte pair. -/
def int16_of_bytes (lo hi : ℕ) : ℤ :=
  let v : ℤ := (lo % 256 : ℕ) + 256 * (hi % 256 : ℕ)
  if v < 32768 then v else v - 65536

/-- np.frombuffer(-, dtype=np.int16): pairs the byte string into signed 16-bit
samples; none for an odd byte count (ValueError: buffer size must be a multiple
of element size). -/
def bytes_to_int16 : List ℕ → Option (List ℤ)
  | [] => some []
  | [_] => none
  | lo :: hi :: rest => (bytes_to_int16 rest).map fun l => int16_of_bytes lo hi :: l

/-- tobytes of one int16 sample, little endian. -/
def int16_to_bytes (v : ℤ) : List ℕ :=
  let u := (v % 65536).toNat
  [u % 256, u / 256]

noncomputable section

/-- audio_int16.astype(np.float32) / 32768.0. -/
def to_float (ints : List ℤ) : List ℝ := ints.map fun z : ℤ => (z : ℝ) / 32768

/-- np.clip(processed * 32768.0, -32768, 32767).astype(np.int16).tobytes(). -/
def encode_frame (l : List ℝ) : List ℕ :=
  (l.map fun x => int16_to_bytes (trunc_real (clip_real (x * 32768) (-32768) 32767))).flatten

/-- deque append with maxlen: keep the most recent cap entries. -/
def push_maxlen (cap : ℕ) (buf : List ℝ) (xs : List ℝ) : List ℝ :=
  let l := buf ++ xs
  l.drop (l.length - cap)

/-- One step of scipy.signal.lfilter (direct form II transposed), coefficients
normalized by a[0] as scipy does. -/
def lfilter_step (b a : List ℝ) (x : ℝ) (z : List ℝ) : ℝ × List ℝ :=
  let a0 := a.getD 0 1
  let y := (b.getD 0 0 / a0) * x + z.getD 0 0
  (y, (List.range z.length).map fun i =>
    (b.getD (i + 1) 0 / a0) * x + z.getD (i + 1) 0 - (a.getD (i + 1) 0 / a0) * y)

/-- scipy.signal.lfilter over a frame, returning the filtered frame and the
carried-forward filter state zi. -/
def lfilter_list (b a : List ℝ) (xs : List ℝ) (zi : List ℝ) : List ℝ × List ℝ :=
  xs.foldl (fun acc x =>
    let r := lfilter_step b a x acc.2
    (acc.1 ++ [r.1], r.2)) ([], zi)

/-- scipy.fft.rfft of a real vector: the first n/2+1 bins of the DFT. -/
def rfft_list (x : List ℝ) : List ℂ :=
  let n := x.length
  (List.range (n / 2 + 1)).map fun k : ℕ =>
    ((List.range n).map fun j : ℕ =>
      Complex.ofReal (x.getD j 0) *
        Complex.exp (-2 * Real.pi * Complex.I * (j : ℂ) * (k : ℂ) / (n : ℂ))).sum

/-- scipy.fft.irfft of a half spectrum back to 2*(len-1) real samples. -/
def irfft_list (spec : List ℂ) : List ℝ :=
  let n := 2 * (spec.length - 1)
  (List.range n).map fun j : ℕ =>
    (1 / n : ℝ) * ((List.range spec.length).map fun k : ℕ =>
      (if k = 0 ∨ k = spec.length - 1 then (1 : ℝ) else 2) *
        (spec.getD k 0 * Complex.exp (2 * Real.pi * Complex.I * (j : ℂ) * (k : ℂ) / (n : ℂ))).re).sum

end

/-- Errors a pipeline entry point can propagate. The source has no error class
of its own: the only uncaught exceptions are ValueError raised inside numpy
(frombuffer on an odd byte count, np.pad with a negative width). -/
inductive PyErr where
  | valueError
deriving DecidableEq

/-- Construction-time parameters of AudioPreprocessor, including the external
collaborator capabilities (hp filter coefficients from scipy.signal.butter and
lfilter_zi, the optional SpeexDSP and WebRTC engines). -/
structure PPConfig where
  sample_rate : ℕ
  frame_size_ms : ℕ
  enable_noise_reduction : Bool
  noise_reduction_level : ℕ
  enable_aec : Bool
  enable_agc : Bool
  agc_target_level_db : ℝ
  enable_highpass : Bool
  hp_b : List ℝ
  hp_a : List ℝ
  hp_zi_init : List ℝ
  speex_engine : Option (List ℤ → List ℤ → Option (List ℤ))
  vad_engine : Option (List ℤ → ℕ → Option Bool)

/-- Mutable attributes of AudioPreprocessor that evolve across frames. -/
structure PPState where
  hp_zi : List ℝ
  agc_gain : ℝ
  noise_profile : Option (List ℝ)
  noise_frames_collected : ℕ
  speaker_buffer : List ℝ
  nlms_weights : List ℝ
  frames_processed : ℕ
  total_gain_applied : ℝ

noncomputable section

/-- self.frame_size = int(sample_rate * frame_size_ms / 1000). -/
def frame_size (cfg : PPConfig) : ℕ := cfg.sample_rate * cfg.frame_size_ms / 1000

/-- self.agc_target_level = 10 ** (agc_target_level_db / 20). -/
def agc_target_level (cfg : PPConfig) : ℝ := (10 : ℝ) ^ (cfg.agc_target_level_db / 20)

/-- The state right after AudioPreprocessor.__init__. -/
def init_state (cfg : PPConfig) : PPState :=
  { hp_zi := cfg.hp_zi_init
    agc_gain := 1
    noise_profile := none
    noise_frames_collected := 0
    speaker_buffer := []
    nlms_weights := List.replicate 512 0
    frames_processed := 0
    total_gain_applied := 0 }

/-- AudioPreprocessor._update_noise_profile without its np.pad length guard:
the EMA update of the magnitude spectrum (alpha = 0.1). -/
def noise_profile_update (audio : List ℝ) (prof : Option (List ℝ)) : List ℝ :=
  let magnitude := (rfft_list (audio ++ List.replicate (512 - audio.length) 0)).map Complex.abs
  match prof with
  | none => magnitude
  | some p => List.zipWith (fun m q => (1 / 10) * m + (9 / 10) * q) magnitude p

/-- AudioPreprocessor._detect_voice_activity: external detector when wired
(trimmed to a 10 ms window), energy threshold rms > 0.01 as fallback and on
detector failure. -/
def detect_voice_activity (cfg : PPConfig) (audio : List ℝ) : Bool :=
  match cfg.vad_engine with
  | none => decide (rms_of audio > 1 / 100)
  | some v =>
    let ints := audio.map to_int16_wrap
    let target := cfg.sample_rate / 100
    let ints' := if target < ints.length then ints.take target else ints
    match v ints' cfg.sample_rate with
    | some b => b
    | none => decide (rms_of audio > 1 / 100)

/-- AudioPreprocessor._apply_noise_reduction. During the first 25 frames
(calibration) the frame seeds the noise profile and passes through unmodified;
afterwards spectral subtraction runs over a 512-point FFT. A frame longer than
the FFT size makes np.pad raise ValueError (negative pad width) before any
attribute of the stage is mutated. -/
def apply_noise_reduction (cfg : PPConfig) (audio : List ℝ) (st : PPState) :
    Except PyErr (List ℝ × PPState) :=
  if st.noise_frames_collected < 25 then
    if 512 < audio.length then .error .valueError
    else .ok (audio,
      { st with noise_profile := some (noise_profile_update audio st.noise_profile)
                noise_frames_collected := st.noise_frames_collected + 1 })
  else
    match st.noise_profile with
    | none => .ok (audio, st)
    | some prof =>
      if 512 < audio.length then .error .valueError
      else
        let has_voice := detect_voice_activity cfg audio
        let updating := has_voice = false ∧ 0 < cfg.noise_reduction_level
        let prof' := if updating then noise_profile_update audio (some prof) else prof
        let st' := if updating then { st with noise_profile := some prof' } else st
        let padded := audio ++ List.replicate (512 - audio.length) 0
        let spectrum := rfft_list padded
        let magnitude := spectrum.map Complex.abs
        let phase := spectrum.map Complex.arg
        let over := 1 + (cfg.noise_reduction_level : ℝ) * (1 / 2)
        let clean_mag := List.zipWith (fun m p => max (m - over * p) ((2 / 1000) * m))
          magnitude (prof'.take magnitude.length)
        let clean_spectrum := List.zipWith
          (fun m θ : ℝ => Complex.ofReal m * Complex.exp (Complex.I * Complex.ofReal θ))
          clean_mag phase
        .ok ((irfft_list clean_spectrum).take audio.length, st')

/-- The zero-padded slice of the reference the NLMS loop reads at step i:
x = padded_speaker[i : i + filter_len][::-1]. -/
def nlms_x (filter_len : ℕ) (speaker : List ℝ) (i : ℕ) : List ℝ :=
  (((List.replicate (filter_len - 1) 0 ++ speaker).drop i).take filter_len).reverse

/-- One iteration of the NLMS loop body: echo estimate, error sample, and the
normalized weight update with regularization 1e-6. -/
def nlms_step (mu : ℝ) (w : List ℝ) (mic_i : ℝ) (x : List ℝ) : ℝ × List ℝ :=
  let echo_estimate := dot_list w x
  let error := mic_i - echo_estimate
  let norm := dot_list x x + 1 / 1000000
  (error, List.zipWith (fun wj xj => wj + (mu / norm) * error * xj) w x)

/-- AudioPreprocessor._apply_nlms_aec: the per-sample loop over the frame,
threading the weight vector. -/
def apply_nlms_aec (mu : ℝ) (mic speaker w : List ℝ) : List ℝ × List ℝ :=
  (List.range mic.length).foldl (fun acc i =>
    let r := nlms_step mu acc.2 (mic.getD i 0) (nlms_x w.length speaker i)
    (acc.1 ++ [r.1], r.2)) ([], w)

/-- AudioPreprocessor._apply_aec: no-op while the reference buffer holds fewer
samples than the frame; otherwise the external engine when present (its failure
caught, falling back), else the NLMS filter with step size 0.3. -/
def apply_aec (cfg : PPConfig) (audio : List ℝ) (st : PPState) : List ℝ × PPState :=
  if st.speaker_buffer.length < audio.length then (audio, st)
  else
    let speaker_ref := st.speaker_buffer.take audio.length
    let fallback :=
      let r := apply_nlms_aec (3 / 10) audio speaker_ref st.nlms_weights
      (r.1, { st with nlms_weights := r.2 })
    match cfg.speex_engine with
    | some engine =>
      match engine (audio.map to_int16_wrap) (speaker_ref.map to_int16_wrap) with
      | some out_ints => (to_float out_ints, st)
      | none => fallback
    | none => fallback

/-- AudioPreprocessor._apply_agc: early return below the rms epsilon, otherwise
asymmetric attack/release toward target_level / rms, clamp to [0.5, 10], apply
the gain and the tanh(2 x)/2 soft limiter. -/
def apply_agc (cfg : PPConfig) (audio : List ℝ) (st : PPState) : List ℝ × PPState :=
  let rms := rms_of audio
  if rms < 1 / 1000000 then (audio, st)
  else
    let target_gain := agc_target_level cfg / rms
    let g1 := if st.agc_gain < target_gain
      then st.agc_gain + (1 / 100) * (target_gain - st.agc_gain)
      else st.agc_gain + (1 / 1000) * (target_gain - st.agc_gain)
    let g := clip_real g1 (1 / 2) 10
    (audio.map fun x => Real.tanh (x * g * 2) / 2,
      { st with agc_gain := g, total_gain_applied := st.total_gain_applied + g })

/-- Step 1 of process_frame: the high-pass filter behind its enable flag
(bypass is the identity). -/
def hp_stage (cfg : PPConfig) (audio : List ℝ) (st : PPState) : List ℝ × PPState :=
  if cfg.enable_highpass then
    let r := lfilter_list cfg.hp_b cfg.hp_a audio st.hp_zi
    (r.1, { st with hp_zi := r.2 })
  else (audio, st)

/-- Step 2 of process_frame: echo cancellation behind its enable flag. -/
def aec_stage (cfg : PPConfig) (audio : List ℝ) (st : PPState) : List ℝ × PPState :=
  if cfg.enable_aec then apply_aec cfg audio st else (audio, st)

/-- Step 3 of process_frame: noise reduction behind its enable flag. -/
def nr_stage (cfg : PPConfig) (audio : List ℝ) (st : PPState) :
    Except PyErr (List ℝ × PPState) :=
  if cfg.enable_noise_reduction then apply_noise_reduction cfg audio st else .ok (audio, st)

/-- Step 4 of process_frame: automatic gain control behind its enable flag. -/
def agc_stage (cfg : PPConfig) (audio : List ℝ) (st : PPState) : List ℝ × PPState :=
  if cfg.enable_agc then apply_agc cfg audio st else (audio, st)

/-- AudioPreprocessor.process_frame: decode, high-pass, AEC, noise reduction,
AGC, encode. There is no stage-boundary exception handler: an error raised in
a stage is returned to the caller, keeping the attribute mutations the earlier
stages already made. -/
def process_frame (cfg : PPConfig) (audio_data : List ℕ) (st : PPState) :
    Except PyErr (List ℕ) × PPState :=
  match bytes_to_int16 audio_data with
  | none => (.error .valueError, st)
  | some ints =>
    let r1 := hp_stage cfg (to_float ints) st
    let r2 := aec_stage cfg r1.1 r1.2
    match nr_stage cfg r2.1 r2.2 with
    | .error e => (.error e, r2.2)
    | .ok r3 =>
      let r4 := agc_stage cfg r3.1 r3.2
      (.ok (encode_frame r4.1),
        { r4.2 with frames_processed := r4.2.frames_processed + 1 })

/-- AudioPreprocessor.update_speaker_signal: decode the playback frame and
extend the bounded reference deque (maxlen 1024 * 8). The ValueError of an odd
byte count raises before any attribute is mutated. -/
def update_speaker_signal (cfg : PPConfig) (speaker_data : List ℕ) (st : PPState) : PPState :=
  if cfg.enable_aec = false then st
  else
    match bytes_to_int16 speaker_data with
    | none => st
    | some ints =>
      { st with speaker_buffer := push_maxlen (1024 * 8) st.speaker_buffer (to_float ints) }

/-- AudioPreprocessor.reset_noise_profile. -/
def reset_noise_profile (st : PPState) : PPState :=
  { st with noise_profile := none, noise_frames_collected := 0 }

end

/-- The states an AudioPreprocessor instance can reach: the constructed state,
closed under the three mutating entry points. -/
inductive PPReachable (cfg : PPConfig) : PPState → Prop
  | init : PPReachable cfg (init_state cfg)
  | step_process (f : List ℕ) {st} : PPReachable cfg st →
      PPReachable cfg (process_frame cfg f st).2
  | step_speaker (d : List ℕ) {st} : PPReachable cfg st →
      PPReachable cfg (update_speaker_signal cfg d st)
  | step_reset {st} : PPReachable cfg st → PPReachable cfg (reset_noise_profile st)

/-- Mutable attributes of AudioMonitor. The metric deques (maxlen = window_size)
and timestamp deques (maxlen 10) are lists with the oldest entry first. -/
structure MonitorState where
  sample_rate : ℕ
  window_size : ℕ
  rms_buffer : List ℝ
  peak_buffer : List ℝ
  clip_buffer : List ℝ
  voice_buffer : List ℝ
  noise_floor : ℝ
  noise_samples : List ℝ
  current_codec : String
  current_sample_rate : ℕ
  capture_timestamps : List ℝ
  output_timestamps : List ℝ
  frames_monitored : ℕ
  total_clipping_frames : ℕ

/-- The metrics snapshot AudioMonitor.get_current_metrics returns (its
timestamp field, a wall-clock read, is omitted). -/
structure AudioQualityMetrics where
  rms_level_db : ℝ
  peak_level_db : ℝ
  snr_db : ℝ
  clipping_percent : ℝ
  voice_activity_percent : ℝ
  codec : String
  sample_rate : ℕ
  latency_ms : ℝ

noncomputable section

/-- The state right after AudioMonitor.__init__. -/
def monitor_init (sample_rate window_size : ℕ) : MonitorState :=
  { sample_rate := sample_rate
    window_size := window_size
    rms_buffer := []
    peak_buffer := []
    clip_buffer := []
    voice_buffer := []
    noise_floor := 1 / 1000000
    noise_samples := []
    current_codec := "CVSD"
    current_sample_rate := sample_rate
    capture_timestamps := []
    output_timestamps := []
    frames_monitored := 0
    total_clipping_frames := 0 }

/-- AudioMonitor.analyze_frame. The noise floor becomes the median of the last
50 collected noise samples only once more than 50 have been collected; a frame
that fails to decode (odd byte count) raises before any attribute is mutated. -/
def analyze_frame (audio_data : List ℕ) (has_voice : Bool) (st : MonitorState) : MonitorState :=
  match bytes_to_int16 audio_data with
  | none => st
  | some ints =>
    let audio_float := to_float ints
    let rms := rms_of audio_float
    let peak := np_max_abs audio_float
    -- np.abs on int16 overflows at -32768 (abs(-32768) = -32768), so that one
    -- value does not satisfy np.abs(x) >= 32767 in the source
    let clipping_samples := (ints.filter fun z => 32767 ≤ z.natAbs ∧ z ≠ -32768).length
    let clipping_percent := (clipping_samples : ℝ) / ints.length * 100
    let qualifies := has_voice = false ∧ 0 < rms
    let noise' := if qualifies then st.noise_samples ++ [rms] else st.noise_samples
    let floor' := if qualifies ∧ 50 < noise'.length
      then np_median (noise'.drop (noise'.length - 50)) else st.noise_floor
    { st with
      rms_buffer := push_maxlen st.window_size st.rms_buffer [rms]
      peak_buffer := push_maxlen st.window_size st.peak_buffer [peak]
      clip_buffer := push_maxlen st.window_size st.clip_buffer [clipping_percent]
      voice_buffer := push_maxlen st.window_size st.voice_buffer [if has_voice then 1 else 0]
      total_clipping_frames :=
        st.total_clipping_frames + (if 0 < clipping_percent then 1 else 0)
      noise_samples := noise'
      noise_floor := floor'
      frames_monitored := st.frames_monitored + 1 }

/-- AudioMonitor.record_capture_timestamp, with the time.time() reading passed
in as a value. -/
def record_capture_timestamp (t : ℝ) (st : MonitorState) : MonitorState :=
  { st with capture_timestamps := push_maxlen 10 st.capture_timestamps [t] }

/-- AudioMonitor.record_output_timestamp. -/
def record_output_timestamp (t : ℝ) (st : MonitorState) : MonitorState :=
  { st with output_timestamps := push_maxlen 10 st.output_timestamps [t] }

/-- min(output_times, key=lambda x: abs(x - cap_time)): the first minimizer of
the absolute distance, scanned left to right. -/
def closest_output (cap : ℝ) (outs : List ℝ) : ℝ :=
  outs.foldl (fun best t => if |t - cap| < |best - cap| then t else best) (outs.headD 0)

/-- AudioMonitor.estimate_latency: 0 with fewer than 2 samples in either
buffer; otherwise the mean, over the last 5 capture timestamps, of the delta to
the closest output timestamp when that one lies strictly after the capture. -/
def estimate_latency (st : MonitorState) : ℝ :=
  if st.capture_timestamps.length < 2 ∨ st.output_timestamps.length < 2 then 0
  else
    let caps := st.capture_timestamps.drop (st.capture_timestamps.length - 5)
    let outs := st.output_timestamps.drop (st.output_timestamps.length - 5)
    let latencies := caps.filterMap fun cap =>
      let closest := closest_output cap outs
      if cap < closest then some ((closest - cap) * 1000) else none
    if latencies.length = 0 then 0 else np_mean latencies

/-- The averaged rms of get_current_metrics: np.mean(list(rms_buffer)) when
the buffer is nonempty, else the 1e-6 default. -/
def monitor_avg_rms (st : MonitorState) : ℝ :=
  if st.rms_buffer.length = 0 then 1 / 1000000 else np_mean st.rms_buffer

/-- AudioMonitor.get_current_metrics. -/
def get_current_metrics (st : MonitorState) : AudioQualityMetrics :=
  let avg_rms := monitor_avg_rms st
  let avg_peak := if st.peak_buffer.length = 0 then 1 / 1000000 else np_mean st.peak_buffer
  let avg_clip := if st.clip_buffer.length = 0 then 0 else np_mean st.clip_buffer
  let avg_voice := if st.voice_buffer.length = 0 then 0 else np_mean st.voice_buffer
  { rms_level_db := if 0 < avg_rms then 20 * Real.logb 10 avg_rms else -100
    peak_level_db := if 0 < avg_peak then 20 * Real.logb 10 avg_peak else -100
    snr_db := if 0 < st.noise_floor ∧ st.noise_floor < avg_rms
      then 20 * Real.logb 10 (avg_rms / st.noise_floor) else 0
    clipping_percent := avg_clip
    voice_activity_percent := avg_voice * 100
    codec := st.current_codec
    sample_rate := st.current_sample_rate
    latency_ms := estimate_latency st }

/-- AudioMonitor.set_codec_info. -/
def set_codec_info (codec : String) (sample_rate : ℕ) (st : MonitorState) : MonitorState :=
  { st with current_codec := codec, current_sample_rate := sample_rate }

/-- AudioMonitor.is_quality_acceptable: the chain of threshold checks, first
failure wins (the reason strings stand for the formatted messages). -/
def is_quality_acceptable (st : MonitorState) : Bool × String :=
  let m := get_current_metrics st
  if 1 < m.clipping_percent then (false, "Excessive clipping")
  else if m.snr_db < 10 ∧ 50 < st.frames_monitored then (false, "Low SNR")
  else if m.rms_level_db < -40 then (false, "Signal too quiet")
  else if 300 < m.latency_ms then (false, "High latency")
  else (true, "Quality OK")

/-- AudioMonitor.reset. -/
def monitor_reset (st : MonitorState) : MonitorState :=
  { st with
    rms_buffer := []
    peak_buffer := []
    clip_buffer := []
    voice_buffer := []
    capture_timestamps := []
    output_timestamps := []
    noise_samples := []
    frames_monitored := 0
    total_clipping_frames := 0
    noise_floor := 1 / 1000000 }

end

/-- The states an AudioMonitor instance can reach: the constructed state,
closed under every mutating entry point (timestamps carry the arbitrary
time.time() reading as a parameter). -/
inductive MonReachable : MonitorState → Prop
  | init (sr ws : ℕ) : MonReachable (monitor_init sr ws)
  | step_analyze (f : List ℕ) (hv : Bool) {st} : MonReachable st →
      MonReachable (analyze_frame f hv st)
  | step_capture (t : ℝ) {st} : MonReachable st → MonReachable (record_capture_timestamp t st)
  | step_output (t : ℝ) {st} : MonReachable st → MonReachable (record_output_timestamp t st)
  | step_codec (c : String) (sr : ℕ) {st} : MonReachable st →
      MonReachable (set_codec_info c sr st)
  | step_reset {st} : MonReachable st → MonReachable (monitor_reset st)

/-! ## Demonstration instances used by concrete witnesses and counterexamples -/

/-- A concrete construction of the preprocessor: 16 kHz, 20 ms frames (N = 320),
every numeric stage enabled, no external engines, high-pass disabled (a
constructor option; it keeps the collaborator-computed Butterworth coefficient
lists empty). -/
noncomputable def cfg_demo : PPConfig :=
  { sample_rate := 16000
    frame_size_ms := 20
    enable_noise_reduction := true
    noise_reduction_level := 2
    enable_aec := true
    enable_agc := true
    agc_target_level_db := -6
    enable_highpass := false
    hp_b := []
    hp_a := []
    hp_zi_init := []
    speex_engine := none
    vad_engine := none }

/-- cfg_demo with the AGC stage disabled. -/
noncomputable def cfg_demo_agc_off : PPConfig :=
  { cfg_demo with enable_agc := false }

/-! ## Stage bookkeeping lemmas -/

theorem apply_aec_agc_gain (cfg : PPConfig) (a : List ℝ) (st : PPState) :
    (apply_aec cfg a st).2.agc_gain = st.agc_gain := by
  unfold apply_aec
  dsimp only
  split
  · rfl
  · split
    · split <;> rfl
    · rfl

theorem apply_agc_nlms_weights (cfg : PPConfig) (a : List ℝ) (st : PPState) :
    (apply_agc cfg a st).2.nlms_weights = st.nlms_weights := by
  unfold apply_agc
  dsimp only
  split <;> rfl

theorem apply_noise_reduction_frame_fields (cfg : PPConfig) (a : List ℝ) (st : PPState)
    (out : List ℝ) (st' : PPState) (h : apply_noise_reduction cfg a st = .ok (out, st')) :
    st'.agc_gain = st.agc_gain ∧ st'.nlms_weights = st.nlms_weights := by
  unfold apply_noise_reduction at h
  split at h
  · split at h
    · exact absurd h (by simp)
    · obtain ⟨-, h2⟩ := Prod.mk.injEq .. ▸ (Except.ok.injEq .. ▸ h)
      rw [← h2]
      exact ⟨rfl, rfl⟩
  · split at h
    · obtain ⟨-, h2⟩ := Prod.mk.injEq .. ▸ (Except.ok.injEq .. ▸ h)
      rw [← h2]
      exact ⟨rfl, rfl⟩
    · split at h
      · exact absurd h (by simp)
      · obtain ⟨-, h2⟩ := Prod.mk.injEq .. ▸ (Except.ok.injEq .. ▸ h)
        rw [← h2]
        split <;> exact ⟨rfl, rfl⟩

theorem clip_real_bounds (x : ℝ) :
    1 / 2 ≤ clip_real x (1 / 2) 10 ∧ clip_real x (1 / 2) 10 ≤ 10 := by
  unfold clip_real
  exact ⟨le_min (le_max_right x (1 / 2)) (by norm_num), min_le_right _ _⟩

theorem apply_agc_gain_cases (cfg : PPConfig) (a : List ℝ) (st : PPState) :
    (apply_agc cfg a st).2.agc_gain = st.agc_gain ∨
      ∃ x, (apply_agc cfg a st).2.agc_gain = clip_real x (1 / 2) 10 := by
  unfold apply_agc
  dsimp only
  split
  · exact Or.inl rfl
  · exact Or.inr ⟨_, rfl⟩

theorem hp_stage_agc_gain (cfg : PPConfig) (a : List ℝ) (st : PPState) :
    (hp_stage cfg a st).2.agc_gain = st.agc_gain := by
  unfold hp_stage
  split <;> rfl

theorem aec_stage_agc_gain (cfg : PPConfig) (a : List ℝ) (st : PPState) :
    (aec_stage cfg a st).2.agc_gain = st.agc_gain := by
  unfold aec_stage
  split
  · exact apply_aec_agc_gain cfg a st
  · rfl

theorem nr_stage_frame_fields (cfg : PPConfig) (a : List ℝ) (st : PPState)
    (out : List ℝ) (st' : PPState) (h : nr_stage cfg a st = .ok (out, st')) :
    st'.agc_gain = st.agc_gain ∧ st'.nlms_weights = st.nlms_weights := by
  unfold nr_stage at h
  split at h
  · exact apply_noise_reduction_frame_fields cfg a st out st' h
  · obtain ⟨-, h2⟩ := Prod.mk.injEq .. ▸ (Except.ok.injEq .. ▸ h)
    rw [← h2]
    exact ⟨rfl, rfl⟩

theorem agc_stage_gain_cases (cfg : PPConfig) (a : List ℝ) (st : PPState) :
    (agc_stage cfg a st).2.agc_gain = st.agc_gain ∨
      ∃ x, (agc_stage cfg a st).2.agc_gain = clip_real x (1 / 2) 10 := by
  unfold agc_stage
  split
  · exact apply_agc_gain_cases cfg a st
  · exact Or.inl rfl

theorem update_speaker_signal_agc_gain (cfg : PPConfig) (d : List ℕ) (st : PPState) :
    (update_speaker_signal cfg d st).agc_gain = st.agc_gain := by
  unfold update_speaker_signal
  split
  · rfl
  · split <;> rfl

/-- After any single call to process_frame, the gain is either untouched or the
clamp of some intermediate value. -/
theorem process_frame_agc_gain_cases (cfg : PPConfig) (f : List ℕ) (st : PPState) :
    (process_frame cfg f st).2.agc_gain = st.agc_gain ∨
      ∃ x, (process_frame cfg f st).2.agc_gain = clip_real x (1 / 2) 10 := by
  unfold process_frame
  cases hdec : bytes_to_int16 f with
  | none => exact Or.inl rfl
  | some ints =>
    dsimp only
    have h2 : (aec_stage cfg (hp_stage cfg (to_float ints) st).1
        (hp_stage cfg (to_float ints) st).2).2.agc_gain = st.agc_gain := by
      rw [aec_stage_agc_gain, hp_stage_agc_gain]
    cases hnr : nr_stage cfg (aec_stage cfg (hp_stage cfg (to_float ints) st).1
        (hp_stage cfg (to_float ints) st).2).1
        (aec_stage cfg (hp_stage cfg (to_float ints) st).1
          (hp_stage cfg (to_float ints) st).2).2 with
    | error e => exact Or.inl h2
    | ok r3 =>
      dsimp only
      have h3 := (nr_stage_frame_fields cfg _ _ r3.1 r3.2 (by rw [hnr])).1
      rcases agc_stage_gain_cases cfg r3.1 r3.2 with h4 | ⟨x, h4⟩
      · exact Or.inl (by rw [h4, h3, h2])
      · exact Or.inr ⟨x, h4⟩

/-! ## C2: echo-cancellation no-op when the reference holds fewer samples than
one frame -/

/-- C2: whenever the echo-reference buffer holds fewer samples than the
microphone frame, the echo-cancellation stage returns the frame unchanged,
sample for sample, and the whole preprocessor state — the adaptive-filter
weights included — is left untouched. -/
theorem claim_C2 (cfg : PPConfig) (audio : List ℝ) (st : PPState)
    (h : st.speaker_buffer.length < audio.length) :
    apply_aec cfg audio st = (audio, st) := by
  unfold apply_aec
  rw [if_pos h]

/-- Witness for C2 at a concrete frame and the freshly constructed state. -/
theorem claim_C2_witness :
    apply_aec cfg_demo [1] (init_state cfg_demo) = ([1], init_state cfg_demo) :=
  claim_C2 cfg_demo [1] (init_state cfg_demo) Nat.zero_lt_one

/-! ## C5: the AGC gain starts at 1.0 and stays inside [0.5, 10] -/

/-- C5: the gain state is initialized to 1.0, and in every reachable state of
the preprocessor — hence after every invocation of the gain-control stage on
any input frame — the current gain lies within [0.5, 10]. -/
theorem claim_C5 (cfg : PPConfig) (st : PPState) (h : PPReachable cfg st) :
    (init_state cfg).agc_gain = 1 ∧ 1 / 2 ≤ st.agc_gain ∧ st.agc_gain ≤ 10 := by
  refine ⟨rfl, ?_⟩
  induction h with
  | init => norm_num [init_state]
  | step_process f hst ih =>
    rcases process_frame_agc_gain_cases cfg f _ with he | ⟨x, hx⟩
    · rw [he]; exact ih
    · rw [hx]; exact clip_real_bounds x
  | step_speaker d hst ih => rw [update_speaker_signal_agc_gain]; exact ih
  | step_reset hst ih => exact ih

/-- Witness for C5 at the freshly constructed demonstration instance. -/
theorem claim_C5_witness :
    (init_state cfg_demo).agc_gain = 1 ∧ 1 / 2 ≤ (init_state cfg_demo).agc_gain ∧
      (init_state cfg_demo).agc_gain ≤ 10 :=
  claim_C5 cfg_demo (init_state cfg_demo) PPReachable.init

/-! ## C6: the soft limiter bounds every AGC output sample by 1 -/

theorem abs_tanh_lt_one (x : ℝ) : |Real.tanh x| < 1 := by
  rw [Real.tanh_eq_sinh_div_cosh, abs_div, abs_of_pos (Real.cosh_pos x),
    div_lt_one (Real.cosh_pos x)]
  rcases abs_cases (Real.sinh x) with ⟨h, -⟩ | ⟨h, -⟩ <;> rw [h]
  · linarith [Real.cosh_sub_sinh x, Real.exp_pos (-x)]
  · linarith [Real.sinh_add_cosh x, Real.exp_pos x]

/-- C6: on the gain-and-soft-limit path of the AGC (frame rms at or above the
near-zero epsilon 1e-6), every sample of the stage output has absolute value at
most 1 — whatever the input amplitude, the configured target and the current
gain (samples past the frame length read as the default 0). -/
theorem claim_C6 (cfg : PPConfig) (audio : List ℝ) (st : PPState)
    (h : 1 / 1000000 ≤ rms_of audio) (i : ℕ) :
    |(apply_agc cfg audio st).1.getD i 0| ≤ 1 := by
  unfold apply_agc
  dsimp only
  rw [if_neg (not_lt.mpr h)]
  rcases lt_or_le i audio.length with hi | hi
  · rw [List.getD_eq_getElem _ 0 (by simpa using hi), List.getElem_map]
    have ht := abs_tanh_lt_one (audio[i] * clip_real
      (if st.agc_gain < agc_target_level cfg / rms_of audio then
        st.agc_gain + 1 / 100 * (agc_target_level cfg / rms_of audio - st.agc_gain)
      else st.agc_gain + 1 / 1000 * (agc_target_level cfg / rms_of audio - st.agc_gain))
      (1 / 2) 10 * 2)
    rw [abs_div]
    rw [show |(2 : ℝ)| = 2 by norm_num]
    linarith
  · rw [List.getD_eq_default _ 0 (by simpa using hi)]
    norm_num

/-- Witness for C6 at a concrete full-scale one-sample frame. -/
theorem claim_C6_witness :
    |(apply_agc cfg_demo [1] (init_state cfg_demo)).1.getD 0 0| ≤ 1 :=
  claim_C6 cfg_demo [1] (init_state cfg_demo) (by norm_num [rms_of, np_mean]) 0

/-! ## C3: the fallback NLMS echo canceller computes what the spec states,
and its weights persist -/

/-- The reference window as the spec words it: the most recent tapCount
reference samples at step i, most recent first, zero where the window reaches
before the start of the reference. This definition follows the SPEC text and is
compared against the one translated from the source (nlms_x). -/
noncomputable def spec_reference_window (speaker : List ℝ) (tapCount i : ℕ) : List ℝ :=
  (List.range tapCount).map fun j => if j ≤ i then speaker.getD (i - j) 0 else 0

/-- The fallback NLMS stage as the spec words it: per output sample, echo
estimate = dot of current weights with the reference window, error = mic sample
minus estimate, then weights += (stepSize / (referenceEnergy + eps)) * error *
window. This definition follows the SPEC text. -/
noncomputable def spec_nlms (stepSize eps : ℝ) (mic speaker w : List ℝ) : List ℝ × List ℝ :=
  (List.range mic.length).foldl (fun acc i =>
    let win := spec_reference_window speaker w.length i
    let err := mic.getD i 0 - dot_list acc.2 win
    (acc.1 ++ [err],
      List.zipWith (fun wj xj => wj + (stepSize / (dot_list win win + eps)) * err * xj)
        acc.2 win)) ([], w)

theorem nlms_x_eq_spec_window (L : ℕ) (speaker : List ℝ) (i : ℕ)
    (hi : i < speaker.length) :
    nlms_x L speaker i = spec_reference_window speaker L i := by
  unfold nlms_x spec_reference_window
  have hlen : (((List.replicate (L - 1) (0 : ℝ) ++ speaker).drop i).take L).length = L := by
    simp only [List.length_take, List.length_drop, List.length_append,
      List.length_replicate]
    omega
  apply List.ext_getElem
  · simp only [List.length_reverse, hlen, List.length_map, List.length_range]
  · intro j h1 h2
    have hjL : j < L := by simpa [hlen] using h1
    rw [List.getElem_reverse]
    simp only [hlen, List.getElem_take, List.getElem_drop, List.getElem_map,
      List.getElem_range]
    by_cases hj : j ≤ i
    · rw [List.getElem_append_right (by simp only [List.length_replicate]; omega),
        if_pos hj]
      simp only [List.length_replicate]
      rw [List.getD_eq_getElem _ _ (by omega : i - j < speaker.length)]
      congr 1
      omega
    · rw [List.getElem_append_left (by simp only [List.length_replicate]; omega),
        if_neg hj]
      exact List.getElem_replicate ..

theorem foldl_congr_of_mem {α β : Type} {f g : β → α → β} {l : List α}
    (h : ∀ b a, a ∈ l → f b a = g b a) (init : β) : l.foldl f init = l.foldl g init := by
  induction l generalizing init with
  | nil => rfl
  | cons x xs ih =>
    simp only [List.foldl_cons]
    rw [h init x (List.mem_cons_self x xs)]
    exact ih (fun b a ha => h b a (List.mem_cons_of_mem x ha)) _

theorem hp_stage_nlms_weights (cfg : PPConfig) (a : List ℝ) (st : PPState) :
    (hp_stage cfg a st).2.nlms_weights = st.nlms_weights := by
  unfold hp_stage
  split <;> rfl

theorem aec_stage_weights_cases (cfg : PPConfig) (a : List ℝ) (st : PPState) :
    (aec_stage cfg a st).2.nlms_weights = st.nlms_weights ∨
      ∃ mic speaker, (aec_stage cfg a st).2.nlms_weights =
        (apply_nlms_aec (3 / 10) mic speaker st.nlms_weights).2 := by
  unfold aec_stage apply_aec
  dsimp only
  split
  · split
    · exact Or.inl rfl
    · split
      · split
        · exact Or.inl rfl
        · exact Or.inr ⟨_, _, rfl⟩
      · exact Or.inr ⟨_, _, rfl⟩
  · exact Or.inl rfl

theorem agc_stage_nlms_weights (cfg : PPConfig) (a : List ℝ) (st : PPState) :
    (agc_stage cfg a st).2.nlms_weights = st.nlms_weights := by
  unfold agc_stage
  split
  · exact apply_agc_nlms_weights cfg a st
  · rfl

/-- C3: the fallback echo canceller of the source computes exactly the NLMS
recursion the spec states — output sample i is mic[i] minus the dot product of
the current weights with the most recent tapCount reference samples, most
recent first, and the weights are then updated by the normalized step formula
with eps = 1e-6 — and the weights persist: neither the playback-side reference
update nor the noise-profile reset touches them, and a process_frame call
either leaves them unchanged or rewrites them solely through that same NLMS
recursion started from the previous weights. -/
theorem claim_C3 :
    (∀ (mu : ℝ) (mic speaker w : List ℝ), mic.length ≤ speaker.length →
      apply_nlms_aec mu mic speaker w = spec_nlms mu (1 / 1000000) mic speaker w) ∧
    (∀ (cfg : PPConfig) (d : List ℕ) (st : PPState),
      (update_speaker_signal cfg d st).nlms_weights = st.nlms_weights) ∧
    (∀ st : PPState, (reset_noise_profile st).nlms_weights = st.nlms_weights) ∧
    (∀ (cfg : PPConfig) (f : List ℕ) (st : PPState),
      (process_frame cfg f st).2.nlms_weights = st.nlms_weights ∨
      ∃ mic speaker, (process_frame cfg f st).2.nlms_weights =
        (apply_nlms_aec (3 / 10) mic speaker st.nlms_weights).2) := by
  refine ⟨?_, ?_, ?_, ?_⟩
  · intro mu mic speaker w hlen
    unfold apply_nlms_aec spec_nlms
    apply foldl_congr_of_mem
    intro acc i hi
    rw [List.mem_range] at hi
    rw [nlms_x_eq_spec_window w.length speaker i (lt_of_lt_of_le hi hlen)]
    rfl
  · intro cfg d st
    unfold update_speaker_signal
    split
    · rfl
    · split <;> rfl
  · intro st
    rfl
  · intro cfg f st
    unfold process_frame
    cases hdec : bytes_to_int16 f with
    | none => exact Or.inl rfl
    | some ints =>
      dsimp only
      rcases aec_stage_weights_cases cfg (hp_stage cfg (to_float ints) st).1
          (hp_stage cfg (to_float ints) st).2 with h2 | ⟨mic, sp, h2⟩ <;>
        rw [hp_stage_nlms_weights] at h2
      · cases hnr : nr_stage cfg (aec_stage cfg (hp_stage cfg (to_float ints) st).1
            (hp_stage cfg (to_float ints) st).2).1
            (aec_stage cfg (hp_stage cfg (to_float ints) st).1
              (hp_stage cfg (to_float ints) st).2).2 with
        | error e => exact Or.inl h2
        | ok r3 =>
          dsimp only
          have h3 := (nr_stage_frame_fields cfg _ _ r3.1 r3.2 (by rw [hnr])).2
          exact Or.inl (by rw [agc_stage_nlms_weights, h3, h2])
      · cases hnr : nr_stage cfg (aec_stage cfg (hp_stage cfg (to_float ints) st).1
            (hp_stage cfg (to_float ints) st).2).1
            (aec_stage cfg (hp_stage cfg (to_float ints) st).1
              (hp_stage cfg (to_float ints) st).2).2 with
        | error e => exact Or.inr ⟨mic, sp, h2⟩
        | ok r3 =>
          dsimp only
          have h3 := (nr_stage_frame_fields cfg _ _ r3.1 r3.2 (by rw [hnr])).2
          exact Or.inr ⟨mic, sp, by rw [agc_stage_nlms_weights, h3, h2]⟩

/-! ## Monitor invariants: C10 and C9 -/

/-- Bookkeeping invariant of every reachable monitor state: at most one noise
sample is collected per analyzed frame, and the noise floor still has its
construction value 1e-6 while at most 50 noise samples exist. -/
theorem mon_invariant (st : MonitorState) (h : MonReachable st) :
    st.noise_samples.length ≤ st.frames_monitored ∧
      (st.noise_samples.length ≤ 50 → st.noise_floor = 1 / 1000000) := by
  induction h with
  | init sr ws => exact ⟨le_rfl, fun _ => rfl⟩
  | step_analyze f hv hst ih =>
    unfold analyze_frame
    cases hdec : bytes_to_int16 f with
    | none => exact ih
    | some ints =>
      dsimp only
      have iha := ih.1
      constructor
      · by_cases hq : hv = false ∧ 0 < rms_of (to_float ints)
        · simp only [if_pos hq, List.length_append, List.length_cons, List.length_nil]
          omega
        · simp only [if_neg hq]
          omega
      · intro h50
        by_cases hq : hv = false ∧ 0 < rms_of (to_float ints)
        · simp only [if_pos hq, List.length_append, List.length_cons, List.length_nil]
            at h50 ⊢
          rw [if_neg (by rintro ⟨-, hlen⟩; omega)]
          exact ih.2 (by omega)
        · simp only [if_neg hq] at h50 ⊢
          rw [if_neg (fun hcon => hq hcon.1)]
          exact ih.2 h50
  | step_capture t hst ih => exact ih
  | step_output t hst ih => exact ih
  | step_codec c sr hst ih => exact ih
  | step_reset hst ih => exact ⟨le_rfl, fun _ => rfl⟩

/-- C10: in every reachable monitor state the noise floor keeps its initial
value 1e-6 until strictly more than 50 qualifying frames (has_voice false and
positive rms) have been analyzed since construction or the last reset; each
analyzed frame appends its rms to the internal noise-sample list exactly when
it qualifies and the list is never trimmed; reset restores the empty list and
the initial floor. SNR and the quality verdict read st.noise_floor, hence are
computed against 1e-6 throughout that period. -/
theorem claim_C10 (st : MonitorState) (h : MonReachable st) :
    (st.noise_samples.length ≤ 50 → st.noise_floor = 1 / 1000000) ∧
    (∀ (frame : List ℕ) (ints : List ℤ) (hv : Bool), bytes_to_int16 frame = some ints →
      (analyze_frame frame hv st).noise_samples =
        (if hv = false ∧ 0 < rms_of (to_float ints)
         then st.noise_samples ++ [rms_of (to_float ints)] else st.noise_samples)) ∧
    (monitor_reset st).noise_samples = [] ∧
    (monitor_reset st).noise_floor = 1 / 1000000 := by
  refine ⟨(mon_invariant st h).2, ?_, rfl, rfl⟩
  intro frame ints hv hdec
  unfold analyze_frame
  rw [hdec]

/-- Witness for C10 at the freshly constructed monitor. -/
theorem claim_C10_witness : (monitor_init 16000 100).noise_floor = 1 / 1000000 :=
  (claim_C10 (monitor_init 16000 100) (MonReachable.init 16000 100)).1 (Nat.zero_le 50)

theorem metrics_snr_db (st : MonitorState) :
    (get_current_metrics st).snr_db =
      (if 0 < st.noise_floor ∧ st.noise_floor < monitor_avg_rms st
       then 20 * Real.logb 10 (monitor_avg_rms st / st.noise_floor) else 0) := rfl

theorem metrics_rms_db (st : MonitorState) :
    (get_current_metrics st).rms_level_db =
      (if 0 < monitor_avg_rms st then 20 * Real.logb 10 (monitor_avg_rms st) else -100) := rfl

/-- The analytic heart of C9: against the initial noise floor 1e-6, an SNR
metric below 10 dB forces the averaged-rms metric below -40 dB. -/
theorem rms_db_lt_of_snr_lt (avg : ℝ)
    (hsnr : (if 0 < (1 / 1000000 : ℝ) ∧ (1 / 1000000 : ℝ) < avg
             then 20 * Real.logb 10 (avg / (1 / 1000000)) else 0) < 10) :
    (if 0 < avg then 20 * Real.logb 10 avg else (-100 : ℝ)) < -40 := by
  by_cases hpos : 0 < avg
  · rw [if_pos hpos]
    have havg : avg < 1 / 100 := by
      by_cases hgt : (1 / 1000000 : ℝ) < avg
      · rw [if_pos ⟨by norm_num, hgt⟩] at hsnr
        have h1 : Real.logb 10 (avg / (1 / 1000000)) < 1 / 2 := by linarith
        have h2 : avg / (1 / 1000000) < (10 : ℝ) ^ ((1 : ℝ) / 2) :=
          (Real.logb_lt_iff_lt_rpow (by norm_num) (by positivity)).1 h1
        have h3 : (10 : ℝ) ^ ((1 : ℝ) / 2) < 10 := by
          calc (10 : ℝ) ^ ((1 : ℝ) / 2) < (10 : ℝ) ^ (1 : ℝ) :=
                Real.rpow_lt_rpow_of_exponent_lt (by norm_num) (by norm_num)
            _ = 10 := Real.rpow_one 10
        have h4 : avg * 1000000 < 10 := by
          have : avg / (1 / 1000000) = avg * 1000000 := by ring
          linarith [this ▸ lt_trans h2 h3]
        linarith
      · push_neg at hgt
        linarith
    have h5 : Real.logb 10 avg < -2 := by
      apply (Real.logb_lt_iff_lt_rpow (by norm_num) hpos).2
      have h6 : (10 : ℝ) ^ (-2 : ℝ) = 1 / 100 := by
        rw [show (-2 : ℝ) = ((-2 : ℤ) : ℝ) by norm_num, Real.rpow_intCast]
        norm_num
      rw [h6]
      exact havg
    linarith
  · rw [if_neg hpos]
    norm_num

/-- C9: on every reachable monitor state the quality verdict is not-acceptable
exactly when averaged clipping% exceeds 1.0, or the SNR metric is below 10 dB
with at least 50 frames analyzed, or the averaged-rms metric is below -40 dB,
or the estimated latency exceeds 300 ms; otherwise it is acceptable. The source
guards the SNR check with strictly more than 50 frames, but at exactly 50
frames the noise floor is still 1e-6, so an SNR below 10 dB forces the rms
check to fail as well and the verdicts coincide. -/
theorem claim_C9 (st : MonitorState) (h : MonReachable st) :
    (is_quality_acceptable st).1 = false ↔
      (1 < (get_current_metrics st).clipping_percent ∨
       ((get_current_metrics st).snr_db < 10 ∧ 50 ≤ st.frames_monitored) ∨
       (get_current_metrics st).rms_level_db < -40 ∨
       300 < (get_current_metrics st).latency_ms) := by
  unfold is_quality_acceptable
  dsimp only
  split_ifs with h1 h2 h3 h4
  · exact iff_of_true rfl (Or.inl h1)
  · exact iff_of_true rfl (Or.inr (Or.inl ⟨h2.1, le_of_lt h2.2⟩))
  · exact iff_of_true rfl (Or.inr (Or.inr (Or.inl h3)))
  · exact iff_of_true rfl (Or.inr (Or.inr (Or.inr h4)))
  · refine iff_of_false (by simp) ?_
    rintro (hc | ⟨hs, hf⟩ | hr | hl)
    · exact h1 hc
    · have hnot : ¬ 50 < st.frames_monitored := fun hgt => h2 ⟨hs, hgt⟩
      have hf50 : st.frames_monitored = 50 := by omega
      have hfloor : st.noise_floor = 1 / 1000000 :=
        (mon_invariant st h).2 (le_trans (mon_invariant st h).1 (le_of_eq hf50))
      apply h3
      rw [metrics_rms_db]
      apply rms_db_lt_of_snr_lt
      rw [metrics_snr_db, hfloor] at hs
      exact hs
    · exact h3 hr
    · exact h4 hl

/-- Witness for C9 at the freshly constructed monitor. -/
theorem claim_C9_witness :
    (is_quality_acceptable (monitor_init 16000 100)).1 = false ↔
      (1 < (get_current_metrics (monitor_init 16000 100)).clipping_percent ∨
       ((get_current_metrics (monitor_init 16000 100)).snr_db < 10 ∧
         50 ≤ (monitor_init 16000 100).frames_monitored) ∨
       (get_current_metrics (monitor_init 16000 100)).rms_level_db < -40 ∨
       300 < (get_current_metrics (monitor_init 16000 100)).latency_ms) :=
  claim_C9 (monitor_init 16000 100) (MonReachable.init 16000 100)

/-! ## C8: the latency estimator on a single capture/output timestamp pair -/

/-- The monitor state after recording exactly one capture timestamp (at t = 0)
and one output timestamp 50 ms = 1/20 s later, the setup of the testable
property and of the repository test test_latency_estimation. -/
noncomputable def mon_one_pair : MonitorState :=
  record_output_timestamp (1 / 20) (record_capture_timestamp 0 (monitor_init 16000 100))

/-- C8 as the code behaves: with exactly one recorded capture timestamp and one
recorded output timestamp 50 ms after it, estimate_latency returns 0 — each
buffer holds fewer than 2 entries — which is not within 10 of 50, contradicting
the claim and the repository test that asserts a value in (40, 60). -/
theorem claim_C8_code_bug :
    estimate_latency mon_one_pair = 0 ∧ ¬ (|estimate_latency mon_one_pair - 50| ≤ 10) := by
  have h : estimate_latency mon_one_pair = 0 := by
    unfold estimate_latency
    rw [if_pos]
    exact Or.inl (by norm_num [mon_one_pair, record_output_timestamp,
      record_capture_timestamp, monitor_init, push_maxlen])
  refine ⟨h, ?_⟩
  rw [h]
  rw [show |(0 : ℝ) - 50| = 50 by
    rw [zero_sub, abs_neg]
    exact abs_of_nonneg (by norm_num)]
  norm_num

/-! ## Frame-length bookkeeping for the pipeline stages -/

theorem lfilter_foldl_length (b a : List ℝ) :
    ∀ (xs : List ℝ) (acc : List ℝ × List ℝ),
      (xs.foldl (fun acc x =>
        let r := lfilter_step b a x acc.2
        (acc.1 ++ [r.1], r.2)) acc).1.length = acc.1.length + xs.length := by
  intro xs
  induction xs with
  | nil => intro acc; simp
  | cons x rest ih =>
    intro acc
    simp only [List.foldl_cons]
    rw [ih]
    simp only [List.length_append, List.length_cons, List.length_nil]
    omega

theorem lfilter_list_length (b a xs zi : List ℝ) :
    (lfilter_list b a xs zi).1.length = xs.length := by
  unfold lfilter_list
  rw [lfilter_foldl_length]
  simp

theorem hp_stage_length (cfg : PPConfig) (audio : List ℝ) (st : PPState) :
    (hp_stage cfg audio st).1.length = audio.length := by
  unfold hp_stage
  split
  · exact lfilter_list_length ..
  · rfl

theorem hp_stage_speaker_buffer (cfg : PPConfig) (audio : List ℝ) (st : PPState) :
    (hp_stage cfg audio st).2.speaker_buffer = st.speaker_buffer := by
  unfold hp_stage
  split <;> rfl

theorem hp_stage_noise_frames (cfg : PPConfig) (audio : List ℝ) (st : PPState) :
    (hp_stage cfg audio st).2.noise_frames_collected = st.noise_frames_collected := by
  unfold hp_stage
  split <;> rfl

/-- The insufficient-reference no-op of _apply_aec, shared helper form. -/
theorem apply_aec_noop (cfg : PPConfig) (audio : List ℝ) (st : PPState)
    (h : st.speaker_buffer.length < audio.length) :
    apply_aec cfg audio st = (audio, st) := by
  unfold apply_aec
  rw [if_pos h]

/-- During calibration a short-enough frame passes through noise reduction
unchanged (only the profile and the counter move). -/
theorem nr_stage_calibration (cfg : PPConfig) (audio : List ℝ) (st : PPState)
    (hcal : st.noise_frames_collected < 25) (hlen : audio.length ≤ 512) :
    ∃ st', nr_stage cfg audio st = .ok (audio, st') := by
  unfold nr_stage
  split
  · unfold apply_noise_reduction
    rw [if_pos hcal, if_neg (by omega)]
    exact ⟨_, rfl⟩
  · exact ⟨_, rfl⟩

/-! ## C4: pipeline output during the calibration phase -/

/-- C4 amended: during the calibration phase (fewer than 25 frames collected)
the noise-reduction stage passes the frame through unmodified, so that when the
AGC stage is disabled and the echo reference holds fewer samples than the
frame, the pipeline output is byte-for-byte the encoded high-pass stage
output. (As originally stated — with the AGC stage active, its default — the
equality fails; see the counterexample.) -/
theorem claim_C4_amended (cfg : PPConfig) (input : List ℕ) (ints : List ℤ) (st : PPState)
    (hdec : bytes_to_int16 input = some ints)
    (hlen : ints.length ≤ 512)
    (hcal : st.noise_frames_collected < 25)
    (hagc : cfg.enable_agc = false)
    (haec : st.speaker_buffer.length < ints.length) :
    (process_frame cfg input st).1 =
      .ok (encode_frame (hp_stage cfg (to_float ints) st).1) := by
  unfold process_frame
  rw [hdec]
  dsimp only
  have hlen1 : (hp_stage cfg (to_float ints) st).1.length = ints.length := by
    rw [hp_stage_length]
    simp only [to_float, List.length_map]
  have haec2 : aec_stage cfg (hp_stage cfg (to_float ints) st).1
      (hp_stage cfg (to_float ints) st).2 =
      ((hp_stage cfg (to_float ints) st).1, (hp_stage cfg (to_float ints) st).2) := by
    unfold aec_stage
    split
    · exact apply_aec_noop _ _ _ (by rw [hp_stage_speaker_buffer, hlen1]; exact haec)
    · rfl
  rw [haec2]
  obtain ⟨st3, hnr⟩ := nr_stage_calibration cfg (hp_stage cfg (to_float ints) st).1
    (hp_stage cfg (to_float ints) st).2
    (by rw [hp_stage_noise_frames]; exact hcal) (by rw [hlen1]; exact hlen)
  rw [hnr]
  dsimp only
  unfold agc_stage
  rw [if_neg (by rw [hagc]; simp)]

/-- Witness for the amended C4 at a concrete first frame (sample value 16384,
i.e. 0.5) on a pipeline with the AGC stage disabled. -/
theorem claim_C4_amended_witness :
    (process_frame cfg_demo_agc_off [0, 64] (init_state cfg_demo_agc_off)).1 =
      .ok (encode_frame (hp_stage cfg_demo_agc_off (to_float [16384])
        (init_state cfg_demo_agc_off)).1) :=
  claim_C4_amended cfg_demo_agc_off [0, 64] [16384] (init_state cfg_demo_agc_off)
    rfl (by simp) (Nat.lt_of_sub_eq_succ rfl) rfl Nat.zero_lt_one

/-! ## Concrete evaluation of the pipeline on one-sample frames -/

theorem to_float_length (ints : List ℤ) : (to_float ints).length = ints.length := by
  simp only [to_float, List.length_map]

/-- On the demonstration instance, a decodable one-sample frame fed to the
fresh pipeline reaches the AGC stage unchanged: the high-pass stage is
disabled, the reference buffer is empty (AEC no-op) and noise reduction is in
its calibration pass-through. -/
theorem process_frame_demo_out (input : List ℕ) (ints : List ℤ) (x : ℝ)
    (hdec : bytes_to_int16 input = some ints) (hfl : to_float ints = [x]) :
    ∃ st3 : PPState, (process_frame cfg_demo input (init_state cfg_demo)).1 =
      .ok (encode_frame (apply_agc cfg_demo [x] st3).1) := by
  unfold process_frame
  rw [hdec]
  dsimp only
  rw [hfl]
  have hhp : hp_stage cfg_demo [x] (init_state cfg_demo) = ([x], init_state cfg_demo) := by
    unfold hp_stage
    rw [if_neg (by simp [cfg_demo])]
  rw [hhp]
  dsimp only
  have haecS : aec_stage cfg_demo [x] (init_state cfg_demo) = ([x], init_state cfg_demo) := by
    unfold aec_stage
    rw [if_pos (show cfg_demo.enable_aec = true from rfl)]
    exact apply_aec_noop _ _ _ Nat.zero_lt_one
  rw [haecS]
  dsimp only
  obtain ⟨st3, hnr⟩ := nr_stage_calibration cfg_demo [x] (init_state cfg_demo)
    (by norm_num [init_state]) (by simp)
  rw [hnr]
  dsimp only
  refine ⟨st3, ?_⟩
  unfold agc_stage
  rw [if_pos (show cfg_demo.enable_agc = true from rfl)]

theorem tanh_nonneg_of_nonneg (x : ℝ) (hx : 0 ≤ x) : 0 ≤ Real.tanh x := by
  rw [Real.tanh_eq_sinh_div_cosh]
  exact div_nonneg (Real.sinh_nonneg_iff.2 hx) (Real.cosh_pos x).le

/-- A sample strictly below 0.5 (and nonnegative) never encodes to the byte
pair of 16384. -/
theorem encode_single_ne (y : ℝ) (hy0 : 0 ≤ y) (hy : y < 1 / 2) :
    encode_frame [y] ≠ [0, 64] := by
  unfold encode_frame int16_to_bytes
  simp only [List.map_cons, List.map_nil, List.flatten_cons, List.flatten_nil,
    List.append_nil]
  have hclip : clip_real (y * 32768) (-32768) 32767 = y * 32768 := by
    unfold clip_real
    rw [max_eq_left (by nlinarith), min_eq_left (by nlinarith)]
  rw [hclip]
  have htr : trunc_real (y * 32768) = ⌊y * 32768⌋ := by
    unfold trunc_real
    rw [if_pos (by nlinarith)]
  rw [htr]
  have h0 : 0 ≤ ⌊y * 32768⌋ := Int.floor_nonneg.mpr (by nlinarith)
  have hlt : ⌊y * 32768⌋ < 16384 := Int.floor_lt.mpr (by push_cast; nlinarith)
  rw [Int.emod_eq_of_lt h0 (by omega)]
  intro heq
  have h1 := List.head_eq_of_cons_eq heq
  have h2 := List.head_eq_of_cons_eq (List.tail_eq_of_cons_eq heq)
  omega

/-- C4 counterexample: on the demonstration pipeline (all numeric stages
active, AGC included, as by default) the very first calibration frame — one
sample of value 16384, i.e. 0.5 — does not come back equal to the high-pass
stage output: the AGC soft limiter tanh(2 x)/2 keeps every output sample
strictly below 0.5, so the encoded frame differs from the byte pair of 16384. -/
theorem claim_C4_cex :
    (process_frame cfg_demo [0, 64] (init_state cfg_demo)).1 ≠
      .ok (encode_frame (hp_stage cfg_demo (to_float [16384]) (init_state cfg_demo)).1) := by
  have hfloat : to_float [16384] = [(1 / 2 : ℝ)] := by
    unfold to_float
    norm_num
  obtain ⟨st3, hout⟩ := process_frame_demo_out [0, 64] [16384] (1 / 2) rfl hfloat
  rw [hout, hfloat]
  have hhp : hp_stage cfg_demo [(1 / 2 : ℝ)] (init_state cfg_demo) =
      ([(1 / 2 : ℝ)], init_state cfg_demo) := by
    unfold hp_stage
    rw [if_neg (by simp [cfg_demo])]
  rw [hhp]
  dsimp only
  have hrms : rms_of [(1 / 2 : ℝ)] = 1 / 2 := by
    unfold rms_of np_mean
    simp only [List.map_cons, List.map_nil, List.sum_cons, List.sum_nil,
      List.length_cons, List.length_nil]
    rw [show ((1 / 2 : ℝ) ^ 2 + 0) / (0 + 1 : ℕ) = (1 / 2 : ℝ) ^ 2 by push_cast; ring]
    exact Real.sqrt_sq (by norm_num)
  have henc : encode_frame [(1 / 2 : ℝ)] = [0, 64] := by
    unfold encode_frame int16_to_bytes
    simp only [List.map_cons, List.map_nil, List.flatten_cons, List.flatten_nil,
      List.append_nil]
    rw [show (1 / 2 : ℝ) * 32768 = 16384 by norm_num]
    have hclip : clip_real (16384 : ℝ) (-32768) 32767 = 16384 := by
      unfold clip_real
      rw [max_eq_left (by norm_num), min_eq_left (by norm_num)]
    rw [hclip]
    rw [show trunc_real (16384 : ℝ) = 16384 by
      unfold trunc_real
      rw [if_pos (by norm_num), show (16384 : ℝ) = ((16384 : ℤ) : ℝ) by norm_num,
        Int.floor_intCast]]
    rfl
  rw [henc]
  unfold apply_agc
  dsimp only
  rw [hrms, if_neg (by norm_num)]
  simp only [List.map_cons, List.map_nil]
  intro heq
  refine encode_single_ne _ ?_ ?_ (Except.ok.inj heq)
  · have hg := (clip_real_bounds (if st3.agc_gain < agc_target_level cfg_demo / (1 / 2)
      then st3.agc_gain + 1 / 100 * (agc_target_level cfg_demo / (1 / 2) - st3.agc_gain)
      else st3.agc_gain + 1 / 1000 * (agc_target_level cfg_demo / (1 / 2) - st3.agc_gain))).1
    exact div_nonneg (tanh_nonneg_of_nonneg _ (by nlinarith)) (by norm_num)
  · have habs := abs_lt.1 (abs_tanh_lt_one ((1 / 2) * clip_real
      (if st3.agc_gain < agc_target_level cfg_demo / (1 / 2)
      then st3.agc_gain + 1 / 100 * (agc_target_level cfg_demo / (1 / 2) - st3.agc_gain)
      else st3.agc_gain + 1 / 1000 * (agc_target_level cfg_demo / (1 / 2) - st3.agc_gain))
      (1 / 2) 10 * 2))
    linarith [habs.2]

/-! ## C1: no frame-size validation anywhere in process_frame -/

theorem rms_of_zero_single : rms_of [(0 : ℝ)] = 0 := by
  unfold rms_of np_mean
  simp

theorem encode_frame_zero_single : encode_frame [(0 : ℝ)] = [0, 0] := by
  unfold encode_frame int16_to_bytes
  simp only [List.map_cons, List.map_nil, List.flatten_cons, List.flatten_nil,
    List.append_nil]
  rw [show (0 : ℝ) * 32768 = 0 by norm_num]
  have hclip : clip_real (0 : ℝ) (-32768) 32767 = 0 := by
    unfold clip_real
    rw [max_eq_left (by norm_num), min_eq_left (by norm_num)]
  rw [hclip]
  rw [show trunc_real (0 : ℝ) = 0 by
    unfold trunc_real
    rw [if_pos le_rfl, Int.floor_zero]]
  rfl

/-- C1 counterexample: a 2-byte frame (one zero sample) fed to the pipeline
configured for 320-sample frames is processed without any error — there is no
frame-size check and no InvalidFrameSize — even though its byte length is not
the configured 2 N = 640. -/
theorem claim_C1_cex :
    (process_frame cfg_demo [0, 0] (init_state cfg_demo)).1 = .ok [0, 0] ∧
      ([0, 0] : List ℕ).length ≠ 2 * frame_size cfg_demo := by
  constructor
  · obtain ⟨st3, hout⟩ := process_frame_demo_out [0, 0] [0] 0 rfl (by norm_num [to_float])
    rw [hout]
    have hagc : apply_agc cfg_demo [(0 : ℝ)] st3 = ([0], st3) := by
      unfold apply_agc
      dsimp only
      rw [rms_of_zero_single, if_pos (by norm_num)]
    rw [hagc, encode_frame_zero_single]
  · rw [show frame_size cfg_demo = 320 from rfl]
    simp

theorem nlms_foldl_length (mu : ℝ) (mic sp w : List ℝ) :
    ∀ (l : List ℕ) (acc : List ℝ × List ℝ),
      (l.foldl (fun acc i =>
        let r := nlms_step mu acc.2 (mic.getD i 0) (nlms_x w.length sp i)
        (acc.1 ++ [r.1], r.2)) acc).1.length = acc.1.length + l.length := by
  intro l
  induction l with
  | nil => intro acc; simp
  | cons x rest ih =>
    intro acc
    simp only [List.foldl_cons]
    rw [ih]
    simp only [List.length_append, List.length_cons, List.length_nil]
    omega

theorem apply_nlms_aec_length (mu : ℝ) (mic sp w : List ℝ) :
    (apply_nlms_aec mu mic sp w).1.length = mic.length := by
  unfold apply_nlms_aec
  rw [nlms_foldl_length]
  simp

theorem apply_aec_length_no_engine (cfg : PPConfig) (a : List ℝ) (st : PPState)
    (heng : cfg.speex_engine = none) :
    (apply_aec cfg a st).1.length = a.length := by
  unfold apply_aec
  dsimp only
  split
  · rfl
  · rw [heng]
    dsimp only
    exact apply_nlms_aec_length ..

theorem aec_stage_length_no_engine (cfg : PPConfig) (a : List ℝ) (st : PPState)
    (heng : cfg.speex_engine = none) :
    (aec_stage cfg a st).1.length = a.length := by
  unfold aec_stage
  split
  · exact apply_aec_length_no_engine cfg a st heng
  · rfl

/-- The noise-reduction stage only ever errors on a frame longer than the FFT
size; any frame of at most 512 samples yields an ok result. -/
theorem nr_stage_ok_of_short (cfg : PPConfig) (a : List ℝ) (st : PPState)
    (hlen : a.length ≤ 512) :
    ∃ r, nr_stage cfg a st = .ok r := by
  unfold nr_stage
  split
  · unfold apply_noise_reduction
    split
    · rw [if_neg (by omega)]
      exact ⟨_, rfl⟩
    · split
      · exact ⟨_, rfl⟩
      · rw [if_neg (by omega)]
        exact ⟨_, rfl⟩
  · exact ⟨_, rfl⟩

/-- C1 amended: process_frame performs no frame-size validation at all — the
source defines no InvalidFrameSize error. With the built-in (engine-free) echo
path, every input whose byte count is even (so numpy frombuffer decodes it) and
decodes to at most 512 samples is processed without any error, whatever its
length relative to the configured frame size; wrong-sized frames are silently
processed rather than rejected. -/
theorem claim_C1_amended (cfg : PPConfig) (input : List ℕ) (ints : List ℤ) (st : PPState)
    (heng : cfg.speex_engine = none)
    (hdec : bytes_to_int16 input = some ints)
    (hlen : ints.length ≤ 512) :
    ∃ out, (process_frame cfg input st).1 = .ok out := by
  unfold process_frame
  rw [hdec]
  dsimp only
  have hl2 : (aec_stage cfg (hp_stage cfg (to_float ints) st).1
      (hp_stage cfg (to_float ints) st).2).1.length = ints.length := by
    rw [aec_stage_length_no_engine _ _ _ heng, hp_stage_length, to_float_length]
  obtain ⟨r, hr⟩ := nr_stage_ok_of_short cfg _
    (aec_stage cfg (hp_stage cfg (to_float ints) st).1
      (hp_stage cfg (to_float ints) st).2).2 (by rw [hl2]; exact hlen)
  rw [hr]
  dsimp only
  exact ⟨_, rfl⟩

/-- Witness for the amended C1: the wrong-sized 2-byte frame of the
counterexample is accepted without error. -/
theorem claim_C1_amended_witness :
    ∃ out, (process_frame cfg_demo [0, 0] (init_state cfg_demo)).1 = .ok out :=
  claim_C1_amended cfg_demo [0, 0] [0] (init_state cfg_demo) rfl rfl (by simp)

/-! ## C7: a stage exception aborts process_frame (no stage-boundary catch) -/

/-- Shared helper: with noise reduction enabled and in calibration, a frame
longer than the FFT size makes the noise-reduction stage raise and the error
propagates out of process_frame. -/
theorem process_frame_nr_error (cfg : PPConfig) (input : List ℕ) (ints : List ℤ)
    (st : PPState)
    (hdec : bytes_to_int16 input = some ints)
    (hnr : cfg.enable_noise_reduction = true)
    (hlen : 512 < ints.length)
    (hcal : st.noise_frames_collected < 25)
    (haec : st.speaker_buffer.length < ints.length) :
    (process_frame cfg input st).1 = .error .valueError := by
  unfold process_frame
  rw [hdec]
  dsimp only
  have hlen1 : (hp_stage cfg (to_float ints) st).1.length = ints.length := by
    rw [hp_stage_length, to_float_length]
  have haec2 : aec_stage cfg (hp_stage cfg (to_float ints) st).1
      (hp_stage cfg (to_float ints) st).2 =
      ((hp_stage cfg (to_float ints) st).1, (hp_stage cfg (to_float ints) st).2) := by
    unfold aec_stage
    split
    · exact apply_aec_noop _ _ _ (by rw [hp_stage_speaker_buffer, hlen1]; exact haec)
    · rfl
  rw [haec2]
  have herr : nr_stage cfg (hp_stage cfg (to_float ints) st).1
      (hp_stage cfg (to_float ints) st).2 = .error .valueError := by
    unfold nr_stage
    rw [if_pos hnr]
    unfold apply_noise_reduction
    rw [if_pos (by rw [hp_stage_noise_frames]; exact hcal),
      if_pos (by rw [hlen1]; exact hlen)]
  rw [herr]

theorem int16_of_bytes_zero : int16_of_bytes 0 0 = 0 := rfl

theorem bytes_to_int16_replicate_zero :
    ∀ n : ℕ, bytes_to_int16 (List.replicate (2 * n) 0) = some (List.replicate n (0 : ℤ)) := by
  intro n
  induction n with
  | zero => rfl
  | succ m ih =>
    rw [show 2 * (m + 1) = 2 * m + 1 + 1 by ring, List.replicate_succ,
      List.replicate_succ, List.replicate_succ]
    unfold bytes_to_int16
    rw [ih]
    rfl

theorem to_float_replicate_zero (n : ℕ) :
    to_float (List.replicate n (0 : ℤ)) = List.replicate n (0 : ℝ) := by
  unfold to_float
  rw [List.map_replicate]
  norm_num

/-- C7 counterexample: feeding a 1030-byte frame (515 zero samples, longer
than the 512-point FFT) to the fresh default pipeline makes process_frame
return the ValueError raised inside the noise-reduction stage — the call
aborts instead of substituting the pre-stage frame and continuing. -/
theorem claim_C7_cex :
    (process_frame cfg_demo (List.replicate 1030 0) (init_state cfg_demo)).1 =
      .error .valueError := by
  have hdec : bytes_to_int16 (List.replicate 1030 0) = some (List.replicate 515 (0 : ℤ)) := by
    rw [show (1030 : ℕ) = 2 * 515 from rfl]
    exact bytes_to_int16_replicate_zero 515
  exact process_frame_nr_error cfg_demo _ _ _ hdec rfl
    (by rw [List.length_replicate]; norm_num) (by norm_num [init_state])
    (by rw [List.length_replicate]; norm_num [init_state])

/-- C7 amended: process_frame contains no stage-boundary exception handling:
when the noise-reduction stage raises (frame longer than the FFT size, noise
reduction enabled, calibration phase, echo reference still short), the
exception propagates to the caller and the call aborts — the pipeline does not
substitute the pre-stage frame and continue. Only failures of the external
engines (AEC engine, VAD delegate) are caught, inside their own stages. -/
theorem claim_C7_amended (cfg : PPConfig) (input : List ℕ) (ints : List ℤ) (st : PPState)
    (hdec : bytes_to_int16 input = some ints)
    (hnr : cfg.enable_noise_reduction = true)
    (hlen : 512 < ints.length)
    (hcal : st.noise_frames_collected < 25)
    (haec : st.speaker_buffer.length < ints.length) :
    (process_frame cfg input st).1 = .error .valueError :=
  process_frame_nr_error cfg input ints st hdec hnr hlen hcal haec

/-- Witness for the amended C7 at a concrete 1026-byte frame (513 samples). -/
theorem claim_C7_amended_witness :
    (process_frame cfg_demo (List.replicate 1026 0) (init_state cfg_demo)).1 =
      .error .valueError :=
  claim_C7_amended cfg_demo (List.replicate 1026 0) (List.replicate 513 (0 : ℤ))
    (init_state cfg_demo)
    (by rw [show (1026 : ℕ) = 2 * 513 from rfl]; exact bytes_to_int16_replicate_zero 513)
    rfl (by rw [List.length_replicate]; norm_num) (by norm_num [init_state])
    (by rw [List.length_replicate]; norm_num [init_state])

end AntigravAudio
